import Mathlib

/-!
Shallow embedding of the starkclaw mobile Session Authority Subsystem
(session signers, keyring proxy signer, feature flags, session-key
registry, transaction status poller) together with theorems settling the
specification claims about it.

Hex strings are modelled by their JavaScript semantics: `natToHex` models
`num.toHex(BigInt(x))` (lowercase, no leading zeros, `0x` prefix) and
`jsBigIntNat` models `BigInt(string)` on the string shapes reachable in
this code base (empty string ⇒ 0, `0x`/`0X`-prefixed hex, plain decimal;
anything else throws, modelled as `none`).
-/

namespace Starkclaw

set_option maxRecDepth 10000

/-- Hex digit character for a value below 16: `0`-`9` then lowercase
`a`-`f`, as produced by JavaScript `Number.prototype.toString(16)`. -/
def hexDigitChar (n : Nat) : Char :=
  if n < 10 then Char.ofNat (48 + n) else Char.ofNat (87 + n)

/-- Hex digits of `n`, least significant first; `[]` for 0. Fueled for
structural recursion; `fuel ≥ n` always suffices. -/
def hexRevAux : Nat → Nat → List Char
  | 0, _ => []
  | _ + 1, 0 => []
  | fuel + 1, n => hexDigitChar (n % 16) :: hexRevAux fuel (n / 16)

/-- Hex digits of `n`, least significant first; `[]` for 0. -/
def hexRev (n : Nat) : List Char := hexRevAux n n

/-- The hex digit list of `n`, most significant first, as produced by
JavaScript `n.toString(16)` (so `['0']` for 0, no leading zeros). -/
def natToHexDigits (n : Nat) : List Char :=
  if n = 0 then ['0'] else (hexRev n).reverse

/-- Models starknet.js `num.toHex` on a `BigInt` value:
`"0x" + n.toString(16)` (lowercase, no leading zeros). -/
def natToHex (n : Nat) : String := "0x" ++ ⟨natToHexDigits n⟩

/-- Numeric value of a hex digit character (`0-9`, `a-f`, `A-F`). -/
def hexVal (c : Char) : Option Nat :=
  if '0' ≤ c ∧ c ≤ '9' then some (c.toNat - 48)
  else if 'a' ≤ c ∧ c ≤ 'f' then some (c.toNat - 87)
  else if 'A' ≤ c ∧ c ≤ 'F' then some (c.toNat - 55)
  else none

/-- Accumulating hex parser over a digit list, most significant first. -/
def parseHexCore : Nat → List Char → Option Nat
  | acc, [] => some acc
  | acc, c :: cs =>
    match hexVal c with
    | some d => parseHexCore (acc * 16 + d) cs
    | none => none

/-- Parse a non-empty list of hex digit characters. -/
def parseHexDigits (l : List Char) : Option Nat :=
  if l = [] then none else parseHexCore 0 l

/-- Numeric value of a decimal digit character. -/
def decVal (c : Char) : Option Nat :=
  if '0' ≤ c ∧ c ≤ '9' then some (c.toNat - 48) else none

/-- Accumulating decimal parser over a digit list, most significant first. -/
def parseDecCore : Nat → List Char → Option Nat
  | acc, [] => some acc
  | acc, c :: cs =>
    match decVal c with
    | some d => parseDecCore (acc * 10 + d) cs
    | none => none

/-- Parse a non-empty list of decimal digit characters. -/
def parseDecDigits (l : List Char) : Option Nat :=
  if l = [] then none else parseDecCore 0 l

/-- Models JavaScript `BigInt(string)` on the string shapes reachable in
this code base: the empty string has value 0, `0x`/`0X`-prefixed strings
parse as hex, all-digit strings parse as decimal; every other shape makes
`BigInt` throw, modelled as `none`. -/
def jsBigIntNat (s : String) : Option Nat :=
  if s.data = [] then some 0
  else if s.data.take 2 = ['0', 'x'] ∨ s.data.take 2 = ['0', 'X'] then
    parseHexDigits (s.data.drop 2)
  else parseDecDigits s.data

/-- A hex digit character, as matched by the character class
`[0-9a-fA-F]`. -/
def isHexDigit (c : Char) : Bool :=
  ('0' ≤ c && c ≤ '9') || ('a' ≤ c && c ≤ 'f') || ('A' ≤ c && c ≤ 'F')

/-- Models `isHexFelt` of `keyring-proxy-signer.ts`: the regular
expression test `/^0x[0-9a-fA-F]+$/.test(value)` on a string. -/
def isHexFelt (s : String) : Bool :=
  decide (s.data.take 2 = ['0', 'x']) && decide (s.data.drop 2 ≠ []) &&
    (s.data.drop 2).all isHexDigit

/-- Models `feltEqualsHex` of `keyring-proxy-signer.ts`: numeric equality
`BigInt(a) === BigInt(b)`, with any `BigInt` exception caught as
`false`. -/
def feltEqualsHex (a b : String) : Bool :=
  match jsBigIntNat a, jsBigIntNat b with
  | some x, some y => x == y
  | _, _ => false

-- ── Round-trip facts about the hex codec ────────────────────────────

theorem hexVal_hexDigitChar {m : Nat} (h : m < 16) :
    hexVal (hexDigitChar m) = some m := by
  interval_cases m <;> decide

theorem parseHexCore_append (xs ys : List Char) (acc : Nat) :
    parseHexCore acc (xs ++ ys) =
      (parseHexCore acc xs).bind (fun a => parseHexCore a ys) := by
  induction xs generalizing acc with
  | nil => simp [parseHexCore]
  | cons c cs ih =>
    simp only [List.cons_append, parseHexCore]
    cases hexVal c with
    | none => simp
    | some d => simpa using ih (acc * 16 + d)

theorem hexRevAux_zero (fuel : Nat) : hexRevAux fuel 0 = [] := by
  cases fuel <;> rfl

theorem parseHexCore_hexRevAux (fuel : Nat) :
    ∀ n acc, n ≤ fuel → 0 < n →
      parseHexCore acc (hexRevAux fuel n).reverse =
        some (acc * 16 ^ (hexRevAux fuel n).length + n) := by
  induction fuel with
  | zero => intro n acc hn h0; omega
  | succ fuel ih =>
    intro n acc hn h0
    match n, h0 with
    | n + 1, _ =>
      have hv : hexVal (hexDigitChar ((n + 1) % 16)) = some ((n + 1) % 16) :=
        hexVal_hexDigitChar (Nat.mod_lt _ (by omega))
      rw [show hexRevAux (fuel + 1) (n + 1) =
            hexDigitChar ((n + 1) % 16) :: hexRevAux fuel ((n + 1) / 16) from rfl]
      rw [List.reverse_cons, parseHexCore_append]
      rcases Nat.eq_zero_or_pos ((n + 1) / 16) with hz | hp
      · have hlt : n + 1 < 16 := by omega
        have hmod : (n + 1) % 16 = n + 1 := Nat.mod_eq_of_lt hlt
        rw [hz, hexRevAux_zero]
        rw [hmod] at hv
        simp [parseHexCore, hmod, hv, pow_one]
      · have hle : (n + 1) / 16 ≤ fuel := by
          have := Nat.div_lt_self (show 0 < n + 1 by omega) (show 1 < 16 by omega)
          omega
        rw [ih _ acc hle hp]
        simp only [parseHexCore, hv, List.length_cons]
        generalize (hexRevAux fuel ((n + 1) / 16)).length = L
        rw [show ((some (acc * 16 ^ L + (n + 1) / 16)).bind
              fun a => some (a * 16 + (n + 1) % 16)) =
            some ((acc * 16 ^ L + (n + 1) / 16) * 16 + (n + 1) % 16) from rfl]
        congr 1
        have hdm : (n + 1) / 16 * 16 + (n + 1) % 16 = n + 1 := by omega
        calc (acc * 16 ^ L + (n + 1) / 16) * 16 + (n + 1) % 16
            = acc * (16 ^ L * 16) + ((n + 1) / 16 * 16 + (n + 1) % 16) := by ring
          _ = acc * 16 ^ (L + 1) + (n + 1) := by rw [hdm, pow_succ]

theorem parseHexDigits_natToHexDigits (n : Nat) :
    parseHexDigits (natToHexDigits n) = some n := by
  rcases Nat.eq_zero_or_pos n with hz | hp
  · subst hz; decide
  · have hne : ¬ n = 0 := by omega
    rw [natToHexDigits, if_neg hne, hexRev]
    have h := parseHexCore_hexRevAux n n 0 le_rfl hp
    have hrev : (hexRevAux n n).reverse ≠ [] := by
      intro hcon
      have : hexRevAux n n = [] := by
        simpa using congrArg List.reverse hcon
      rw [this] at h
      simp [parseHexCore] at h
      omega
    rw [parseHexDigits, if_neg hrev, h]
    simp

/-- `num.toHex` output parses back to the same numeric value under
JavaScript `BigInt`. -/
theorem jsBigIntNat_natToHex (n : Nat) : jsBigIntNat (natToHex n) = some n := by
  have hdata : (natToHex n).data = '0' :: 'x' :: natToHexDigits n := by
    simp [natToHex, String.data_append]
  have hne : natToHexDigits n ≠ [] := by
    rcases Nat.eq_zero_or_pos n with hz | hp
    · subst hz; decide
    · rw [natToHexDigits, if_neg (by omega)]
      intro hcon
      have h := parseHexCore_hexRevAux n n 0 le_rfl hp
      rw [hexRev] at hcon
      rw [hcon] at h
      simp [parseHexCore] at h
      omega

  rw [jsBigIntNat, hdata]
  rw [if_neg (by simp)]
  rw [if_pos (by left; rfl)]
  simpa using parseHexDigits_natToHexDigits n

theorem hexVal_isSome_of_isHexDigit {c : Char} (h : isHexDigit c = true) :
    ∃ d, hexVal c = some d := by
  rw [hexVal]
  by_cases h1 : '0' ≤ c ∧ c ≤ '9'
  · rw [if_pos h1]; exact ⟨_, rfl⟩
  · rw [if_neg h1]
    by_cases h2 : 'a' ≤ c ∧ c ≤ 'f'
    · rw [if_pos h2]; exact ⟨_, rfl⟩
    · rw [if_neg h2]
      by_cases h3 : 'A' ≤ c ∧ c ≤ 'F'
      · rw [if_pos h3]; exact ⟨_, rfl⟩
      · rw [if_neg h3]
        exfalso
        rw [isHexDigit] at h
        simp only [Bool.or_eq_true, Bool.and_eq_true, decide_eq_true_eq] at h
        tauto

theorem parseHexCore_isSome_of_all {l : List Char} (h : l.all isHexDigit = true) :
    ∀ acc, ∃ m, parseHexCore acc l = some m := by
  induction l with
  | nil => intro acc; exact ⟨acc, rfl⟩
  | cons c cs ih =>
    intro acc
    simp only [List.all_cons, Bool.and_eq_true] at h
    obtain ⟨d, hd⟩ := hexVal_isSome_of_isHexDigit h.1
    rw [parseHexCore, hd]
    exact ih h.2 _

/-- Every string accepted by `isHexFelt` parses under JavaScript
`BigInt`. -/
theorem jsBigIntNat_isSome_of_isHexFelt {s : String} (h : isHexFelt s = true) :
    ∃ m, jsBigIntNat s = some m := by
  rw [isHexFelt] at h
  simp only [Bool.and_eq_true, decide_eq_true_eq] at h
  obtain ⟨⟨htake, hdrop⟩, hall⟩ := h
  rw [jsBigIntNat]
  rw [if_neg (by
    intro hcon
    rw [hcon] at hdrop
    simp at hdrop)]
  rw [if_pos (Or.inl htake)]
  rw [parseHexDigits, if_neg hdrop]
  exact parseHexCore_isSome_of_all hall 0

-- ═══════════════ Feature flags (feature-flags.ts) ═══════════════════

/-- The `session_signer_v2` feature flag id. -/
def sessionSignerV2Flag : String := "session_signer_v2"

/-- `DEFAULTS` of feature-flags.ts: `{ session_signer_v2: true }`. -/
def flagDefaults : List (String × Bool) := [(sessionSignerV2Flag, true)]

/-- Property assignment `obj[k] = v` on a JavaScript object modelled as
an association list: overwrite the existing entry or append a new one. -/
def setEntry (l : List (String × Bool)) (k : String) (v : Bool) :
    List (String × Bool) :=
  if l.any (fun p => p.1 == k) then
    l.map (fun p => if p.1 == k then (k, v) else p)
  else l ++ [(k, v)]

/-- Property read `obj[k]` on a JavaScript object modelled as an
association list. -/
def lookupFlag (l : List (String × Bool)) (k : String) : Option Bool :=
  (l.find? (fun p => p.1 == k)).map (fun p => p.2)

/-- `isEnabled` of feature-flags.ts: `session_signer_v2` is hard-enforced
to `true`; other flags read the loaded store, then `DEFAULTS`, then
`false`. -/
def isEnabled (flags : List (String × Bool)) (flag : String) : Bool :=
  if flag == sessionSignerV2Flag then true
  else (lookupFlag flags flag).getD ((lookupFlag flagDefaults flag).getD false)

/-- `setFlag` of feature-flags.ts:
`flags[flag] = flag === "session_signer_v2" ? true : enabled`. -/
def setFlag (flags : List (String × Bool)) (flag : String) (enabled : Bool) :
    List (String × Bool) :=
  setEntry flags flag (if flag == sessionSignerV2Flag then true else enabled)

theorem find?_map_setEntry (l : List (String × Bool)) (k : String) (v : Bool)
    (h : l.any (fun p => p.1 == k) = true) :
    (l.map (fun p => if p.1 == k then (k, v) else p)).find?
        (fun p => p.1 == k) = some (k, v) := by
  induction l with
  | nil => simp at h
  | cons p l ih =>
    by_cases hp : (p.1 == k) = true
    · rw [List.map_cons, if_pos hp]
      exact List.find?_cons_of_pos _ (by simp)
    · have hp2 : (p.1 == k) = false := by simpa using hp
      simp only [List.any_cons, hp2, Bool.false_or] at h
      simp only [List.map_cons, if_neg hp, List.find?]
      rw [hp2]
      exact ih h

theorem find?_append_setEntry (l : List (String × Bool)) (k : String) (v : Bool)
    (h : l.any (fun p => p.1 == k) = false) :
    (l ++ [(k, v)]).find? (fun p => p.1 == k) = some (k, v) := by
  induction l with
  | nil => exact List.find?_cons_of_pos _ (by simp)
  | cons p l ih =>
    have hp2 : (p.1 == k) = false := by
      rcases Bool.eq_false_or_eq_true (p.1 == k) with h2 | h2
      · rw [List.any_cons, h2] at h; simp at h
      · exact h2
    have ht : l.any (fun p => p.1 == k) = false := by
      rcases Bool.eq_false_or_eq_true (l.any fun p => p.1 == k) with h2 | h2
      · rw [List.any_cons, h2, Bool.or_true] at h; simp at h
      · exact h2
    simp only [List.cons_append, List.find?]
    rw [hp2]
    exact ih ht

/-- Assignment followed by read on the same key yields the written value. -/
theorem lookupFlag_setEntry (l : List (String × Bool)) (k : String) (v : Bool) :
    lookupFlag (setEntry l k v) k = some v := by
  rw [setEntry, lookupFlag]
  by_cases h : l.any (fun p => p.1 == k) = true
  · rw [if_pos h, find?_map_setEntry l k v h]; rfl
  · have h2 : l.any (fun p => p.1 == k) = false := by
      rcases Bool.eq_false_or_eq_true (l.any fun p => p.1 == k) with h3 | h3
      · exact absurd h3 h
      · exact h3
    rw [if_neg h, find?_append_setEntry l k v h2]; rfl

-- ═══════ SessionKeySignerV2 (session-signer-v2.ts, snip12-session) ══

/-- Signer mode (the TS string union `"v1" | "v2"`). -/
inductive SignerMode
  | v1
  | v2
  deriving DecidableEq, Repr

/-- The string carried by a `SignerMode` value. -/
def SignerMode.str : SignerMode → String
  | .v1 => "v1"
  | .v2 => "v2"

/-- `SPEC_VERSION_V1` of snip12-session.ts. -/
def SPEC_VERSION_V1 : String := "1"

/-- `SPEC_VERSION_V2` of snip12-session.ts. -/
def SPEC_VERSION_V2 : String := "2"

/-- `DOMAIN_NAME` of snip12-session.ts. -/
def DOMAIN_NAME : String := "Starkclaw"

/-- `SignerMetadata` of snip12-session.ts. -/
structure SignerMetadata where
  signature_mode : String
  spec_version : String
  domain_name : String
  deriving DecidableEq, Repr

/-- `signerMetadata(mode)` of snip12-session.ts. -/
def signerMetadata (mode : SignerMode) : SignerMetadata :=
  { signature_mode := mode.str
    spec_version := if mode = .v2 then SPEC_VERSION_V2 else SPEC_VERSION_V1
    domain_name := DOMAIN_NAME }

/-- An inner starknet.js signature: either already an array of felt
strings, or a weierstrass `{ r, s }` object with bigint fields. -/
inductive InnerSignature
  | arr (felts : List String)
  | rs (r s : Nat)
  deriving DecidableEq, Repr

/-- `signatureToArray` of session-signer-v2.ts: arrays pass through; an
`{ r, s }` object becomes the two hex felts. -/
def signatureToArray : InnerSignature → List String
  | .arr felts => felts
  | .rs r s => [natToHex r, natToHex s]

/-- `SessionKeySignerV2.resolveMode`: the test-only `modeOverride` wins;
otherwise the `session_signer_v2` flag (hard-enforced on) selects v2. -/
def resolveMode (modeOverride : Option SignerMode)
    (flags : List (String × Bool)) : SignerMode :=
  match modeOverride with
  | some m => m
  | none => if isEnabled flags sessionSignerV2Flag then .v2 else .v1

/-- `SessionKeySignerV2.signMessage`: destructures the inner typed-data
signature as `[r, s]` and wraps it with the session public key and, in
v2 mode, the signer metadata felts. -/
def sessionKeySignerV2SignMessage (sessionPublicKey : String)
    (modeOverride : Option SignerMode) (flags : List (String × Bool))
    (innerSig : InnerSignature) : List String :=
  let mode := resolveMode modeOverride flags
  let rs := signatureToArray innerSig
  let r := rs.getD 0 ""
  let s := rs.getD 1 ""
  let meta := signerMetadata mode
  if mode = .v2 then
    [sessionPublicKey, r, s, meta.signature_mode, meta.spec_version]
  else [sessionPublicKey, r, s]

/-- `SessionKeySignerV2.signTransaction`: identical wrapping over the
inner transaction signature. -/
def sessionKeySignerV2SignTransaction (sessionPublicKey : String)
    (modeOverride : Option SignerMode) (flags : List (String × Bool))
    (innerSig : InnerSignature) : List String :=
  let mode := resolveMode modeOverride flags
  let rs := signatureToArray innerSig
  let r := rs.getD 0 ""
  let s := rs.getD 1 ""
  let meta := signerMetadata mode
  if mode = .v2 then
    [sessionPublicKey, r, s, meta.signature_mode, meta.spec_version]
  else [sessionPublicKey, r, s]

/-- `SessionKeySignerV2.signDeployAccountTransaction`: delegates to the
inner owner signer unchanged. -/
def sessionKeySignerV2SignDeployAccount (innerResult : InnerSignature) :
    InnerSignature := innerResult

/-- `SessionKeySignerV2.signDeclareTransaction`: delegates to the inner
owner signer unchanged. -/
def sessionKeySignerV2SignDeclare (innerResult : InnerSignature) :
    InnerSignature := innerResult

-- ═══════════ Local SessionKeySigner (rpc.ts, local mode) ════════════

/-- The message of the unconditional `throw` in
`SessionKeySigner.signTransaction` (rpc.ts). -/
def sessionSignerLocalUnsupportedMsg : String :=
  "SessionKeySigner.signTransaction is not supported in local mode. " ++
  "The on-chain session account validates a custom message hash that " ++
  "the generic starknet.js Signer cannot produce. Use remote signer mode " ++
  "(EXPO_PUBLIC_SIGNER_MODE=remote) with the SISNA proxy instead."

/-- `SessionKeySigner.signTransaction` (rpc.ts): throws unconditionally
in local mode, whatever the calls and details are. -/
def sessionKeySignerSignTransaction {α β : Type}
    (_transactions : α) (_transactionsDetail : β) : Except String (List String) :=
  .error sessionSignerLocalUnsupportedMsg

/-- `SessionKeySigner.signMessage` (rpc.ts): delegates to the inner
starknet.js `Signer`, whose behaviour is a parameter. -/
def sessionKeySignerSignMessage {γ δ σ : Type}
    (innerSignMessage : γ → δ → σ) (typedData : γ) (accountAddress : δ) : σ :=
  innerSignMessage typedData accountAddress

/-- `SessionKeySigner.signDeployAccountTransaction` (rpc.ts): delegates
to the inner starknet.js `Signer`. -/
def sessionKeySignerSignDeployAccount {ε σ : Type}
    (innerSignDeployAccount : ε → σ) (details : ε) : σ :=
  innerSignDeployAccount details

/-- `SessionKeySigner.signDeclareTransaction` (rpc.ts): delegates to the
inner starknet.js `Signer`. -/
def sessionKeySignerSignDeclare {ζ σ : Type}
    (innerSignDeclare : ζ → σ) (details : ζ) : σ :=
  innerSignDeclare details

-- ═══════════════ Theorems: C2, C1, C10 ══════════════════════════════

/-- C2: for every stored flag state, `isEnabled "session_signer_v2"`
returns `true`; `setFlag "session_signer_v2" false` stores `true` instead
of `false` (the disable attempt is silently ignored); and after any
sequence of `setFlag` operations the `session_signer_v2` flag still reads
as enabled. -/
theorem session_signer_v2_hard_enforced :
    (∀ flags : List (String × Bool), isEnabled flags sessionSignerV2Flag = true) ∧
    (∀ flags : List (String × Bool),
      lookupFlag (setFlag flags sessionSignerV2Flag false) sessionSignerV2Flag =
        some true) ∧
    (∀ (flags : List (String × Bool)) (ops : List (String × Bool)),
      isEnabled (ops.foldl (fun fs op => setFlag fs op.1 op.2) flags)
        sessionSignerV2Flag = true) := by
  refine ⟨fun flags => ?_, fun flags => ?_, fun flags ops => ?_⟩
  · simp [isEnabled]
  · have hs : setFlag flags sessionSignerV2Flag false =
        setEntry flags sessionSignerV2Flag true := by
      simp [setFlag]
    rw [hs]
    exact lookupFlag_setEntry _ _ _
  · simp [isEnabled]

/-- C1 counterexample: with the public (test-only) mode override set to
v1, `SessionKeySignerV2.signMessage` emits a 3-felt signature
`[session_pubkey, r, s]`, not the 5-felt shape the claim asserts for
every typed-data message. -/
theorem session_signature_shape_counterexample :
    sessionKeySignerV2SignMessage "0xderived" (some SignerMode.v1) []
        (InnerSignature.rs 17 34) = ["0xderived", "0x11", "0x22"] ∧
    (sessionKeySignerV2SignMessage "0xderived" (some SignerMode.v1) []
        (InnerSignature.rs 17 34)).length ≠ 5 := by
  constructor
  · decide
  · decide

/-- C1 (amended): unless the test-only mode override selects v1 — with no
override the hard-enforced `session_signer_v2` flag makes the mode v2 —
every `signTransaction` and `signMessage` result is exactly the 5-felt
array `[session_pubkey, r, s, signature_mode = "v2", spec_version = "2"]`
whose first element is the active session public key, and deploy-account
and declare signing delegate to the inner owner signer unchanged. -/
theorem session_signature_shape_v2 (pk : String)
    (modeOverride : Option SignerMode) (flags : List (String × Bool))
    (sigM sigT d1 d2 : InnerSignature)
    (h : modeOverride ≠ some SignerMode.v1) :
    sessionKeySignerV2SignMessage pk modeOverride flags sigM =
      [pk, (signatureToArray sigM).getD 0 "", (signatureToArray sigM).getD 1 "",
        "v2", "2"] ∧
    sessionKeySignerV2SignTransaction pk modeOverride flags sigT =
      [pk, (signatureToArray sigT).getD 0 "", (signatureToArray sigT).getD 1 "",
        "v2", "2"] ∧
    (sessionKeySignerV2SignMessage pk modeOverride flags sigM).length = 5 ∧
    (sessionKeySignerV2SignTransaction pk modeOverride flags sigT).length = 5 ∧
    (sessionKeySignerV2SignMessage pk modeOverride flags sigM).getD 0 "" = pk ∧
    (sessionKeySignerV2SignTransaction pk modeOverride flags sigT).getD 0 "" = pk ∧
    sessionKeySignerV2SignDeployAccount d1 = d1 ∧
    sessionKeySignerV2SignDeclare d2 = d2 := by
  have hm : resolveMode modeOverride flags = SignerMode.v2 := by
    cases modeOverride with
    | none => simp [resolveMode, isEnabled]
    | some m =>
      cases m with
      | v1 => exact absurd rfl h
      | v2 => rfl
  refine ⟨?_, ?_, ?_, ?_, ?_, ?_, rfl, rfl⟩ <;>
    simp [sessionKeySignerV2SignMessage, sessionKeySignerV2SignTransaction, hm,
      signerMetadata, SignerMode.str, SPEC_VERSION_V2]

/-- Witness for the amended C1 theorem at a concrete input. -/
theorem session_signature_shape_v2_witness :
    (none : Option SignerMode) ≠ some SignerMode.v1 ∧
    sessionKeySignerV2SignMessage "0xabc" none [] (InnerSignature.rs 1 2) =
      ["0xabc", "0x1", "0x2", "v2", "2"] := by
  refine ⟨by decide, ?_⟩
  have h := (session_signature_shape_v2 "0xabc" none [] (InnerSignature.rs 1 2)
    (InnerSignature.rs 1 2) (InnerSignature.arr ["0xdead"])
    (InnerSignature.arr ["0xbeef"]) (by decide)).1
  exact h.trans (by decide)

/-- C10: local-mode `SessionKeySigner.signTransaction` throws
unconditionally and never produces a signature, while `signMessage`,
`signDeployAccountTransaction` and `signDeclareTransaction` delegate to
the inner starknet.js `Signer`. -/
theorem local_session_signer_unsupported
    {α β γ δ ε ζ σ τ ρ : Type}
    (transactions : α) (details : β)
    (innerSignMessage : γ → δ → σ) (typedData : γ) (accountAddress : δ)
    (innerSignDeployAccount : ε → τ) (deployDetails : ε)
    (innerSignDeclare : ζ → ρ) (declareDetails : ζ) :
    sessionKeySignerSignTransaction transactions details =
      Except.error sessionSignerLocalUnsupportedMsg ∧
    (∀ sig : List String,
      sessionKeySignerSignTransaction transactions details ≠ Except.ok sig) ∧
    sessionKeySignerSignMessage innerSignMessage typedData accountAddress =
      innerSignMessage typedData accountAddress ∧
    sessionKeySignerSignDeployAccount innerSignDeployAccount deployDetails =
      innerSignDeployAccount deployDetails ∧
    sessionKeySignerSignDeclare innerSignDeclare declareDetails =
      innerSignDeclare declareDetails :=
  ⟨rfl, fun _ h => Except.noConfusion h, rfl, rfl, rfl⟩

-- ═══════════ Session-key registry (policy/session-keys.ts) ══════════

/-- Modelled from the spec: `MAX_ALLOWED_TARGETS = 4` of
policy/target-presets.ts, whose source file is not among the provided
sources ("ordered list of up to MAX_ALLOWED_TARGETS=4 felts"). -/
def MAX_ALLOWED_TARGETS : Nat := 4

/-- `StoredSessionKey` of policy/session-keys.ts. The decimal-string
`spendingLimit` is modelled by its integer value; unix-second fields are
JavaScript numbers, modelled as integers. -/
structure StoredSessionKey where
  key : String
  tokenSymbol : String
  tokenAddress : String
  spendingLimit : Int
  validAfter : Int
  validUntil : Int
  allowedContracts : List String
  createdAt : Int
  registeredAt : Option Int := none
  revokedAt : Option Int := none
  lastTxHash : Option String := none
  deriving DecidableEq, Repr

/-- The parameter record of `createLocalSessionKey`. -/
structure CreateLocalParams where
  tokenSymbol : String
  tokenAddress : String
  spendingLimit : Int
  validForSeconds : Int
  allowedContracts : List String
  deriving DecidableEq, Repr

/-- `createLocalSessionKey` of policy/session-keys.ts, with the effectful
inputs (current unix time `createdAt`, the freshly derived public key)
passed explicitly. Returns the credential stored and appended to the
index: `validAfter = createdAt - 5`,
`validUntil = createdAt + Math.max(60, validForSeconds)`, the contract
list sliced to `MAX_ALLOWED_TARGETS`, and the limit stored verbatim. -/
def createLocalSessionKey (params : CreateLocalParams) (createdAt : Int)
    (pub : String) : StoredSessionKey :=
  { key := pub
    tokenSymbol := params.tokenSymbol
    tokenAddress := params.tokenAddress
    spendingLimit := params.spendingLimit
    validAfter := createdAt - 5
    validUntil := createdAt + max 60 params.validForSeconds
    allowedContracts := params.allowedContracts.take MAX_ALLOWED_TARGETS
    createdAt := createdAt }

/-- An observable effect performed by `registerSessionKeyOnchain` once
its guard has passed, in execution order. -/
inductive RegisterEffect
  | chainCall (entrypoint : String) (calldata : List String)
  | waitForTransaction
  | saveIndex (newIndex : List StoredSessionKey)
  deriving DecidableEq, Repr

/-- Models starknet.js `hash.getSelectorFromName` as an abstract
injective tagging of entrypoint names; the selector's numeric value is
irrelevant to the claims settled here. -/
def getSelectorFromName (name : String) : String := "selector(" ++ name ++ ")"

/-- `buildAllowedEntrypoints` of policy/session-keys.ts: the fixed
selector set for `transfer`, `transferFrom`, `swap`, `execute`. -/
def buildAllowedEntrypoints : List String :=
  ["transfer", "transferFrom", "swap", "execute"].map getSelectorFromName

/-- The message of the error thrown by `registerSessionKeyOnchain` when
the credential carries contract-level restrictions. -/
def contractRestrictionsErrorMsg : String :=
  "Contract-level restrictions are not supported by session-account API. " ++
  "Only entrypoint selectors are enforced on-chain. " ++
  "Remove allowedContracts or use a future API version."

/-- The read-modify-write of the first index entry whose key matches,
performed after a successful registration (`findIndex` + assignment). -/
def markRegistered : List StoredSessionKey → String → Int → String →
    List StoredSessionKey
  | [], _, _, _ => []
  | x :: rest, key, now, txHash =>
    if x.key == key then
      { x with registeredAt := some now, lastTxHash := some txHash } :: rest
    else x :: markRegistered rest key now txHash

/-- `registerSessionKeyOnchain` of policy/session-keys.ts, modelled as
the ordered list of effects performed plus the result. The
allowed-contracts guard throws before any on-chain call or index write;
on the success path the account executes `add_or_update_session_key`,
waits for the transaction, and rewrites the stored index entry. The
transaction hash returned by `execute` and the confirmation time are
passed explicitly. -/
def registerSessionKeyOnchain (session : StoredSessionKey)
    (index : List StoredSessionKey) (txHash : String) (now : Int) :
    List RegisterEffect × Except String String :=
  if session.allowedContracts.length > 0 then
    ([], .error contractRestrictionsErrorMsg)
  else
    ([RegisterEffect.chainCall "add_or_update_session_key"
        ([session.key, toString session.validUntil, "100",
          toString buildAllowedEntrypoints.length] ++ buildAllowedEntrypoints),
      RegisterEffect.waitForTransaction] ++
      (if index.any (fun x => x.key == session.key) then
        [RegisterEffect.saveIndex (markRegistered index session.key now txHash)]
      else []),
    .ok txHash)

/-- `isSessionKeyValidOnchain` of policy/session-keys.ts: the
`get_session_data` call outcome and the current unix time are passed
explicitly; result felts parse through `BigInt`; any exception inside the
`try` block (RPC failure or unparsable felt) yields `false`. -/
def isSessionKeyValidOnchain (rpcResult : Except String (List String))
    (now : Nat) : Bool :=
  match rpcResult with
  | .error _ => false
  | .ok res =>
    match jsBigIntNat (res.getD 0 "0x0") with
    | none => false
    | some validUntil =>
      match jsBigIntNat (res.getD 1 "0x0") with
      | none => false
      | some maxCalls =>
        match jsBigIntNat (res.getD 2 "0x0") with
        | none => false
        | some callsUsed =>
          decide (validUntil > now) && decide (callsUsed < maxCalls)

-- ═══════════ Status poller (activity/use-tx-status-poller.ts) ════════

/-- `TxReceiptStatus` of use-tx-status-poller.ts, with the fields the
code actually inspects kept runtime-optional (a pending receipt carries
no finality). -/
structure TxReceiptStatus where
  finality_status : Option String := none
  execution_status : Option String := none
  revert_reason : Option String := none
  deriving DecidableEq, Repr

/-- The `ActivityStatus` values the poller can produce or leave. -/
inductive ActivityStatus
  | pending
  | succeeded
  | reverted
  | unknown
  deriving DecidableEq, Repr

/-- The update record returned by `pollTxStatus`. -/
structure PollUpdate where
  status : ActivityStatus
  executionStatus : Option String := none
  revertReason : Option String := none
  deriving DecidableEq, Repr

/-- JavaScript truthiness of an optional string value. -/
def truthy (o : Option String) : Bool :=
  match o with
  | some s => decide (s ≠ "")
  | none => false

/-- Whether `pat` is a prefix of `l`. -/
def listIsPrefixOf : List Char → List Char → Bool
  | [], _ => true
  | _ :: _, [] => false
  | p :: ps, c :: cs => (p == c) && listIsPrefixOf ps cs

/-- Whether `pat` occurs as a contiguous sublist of `l`. -/
def listContainsSub (pat : List Char) : List Char → Bool
  | [] => listIsPrefixOf pat []
  | c :: rest => listIsPrefixOf pat (c :: rest) || listContainsSub pat rest

/-- JavaScript `String.prototype.includes`. -/
def containsSubstr (s pat : String) : Bool := listContainsSub pat.data s.data

/-- `pollTxStatus` of use-tx-status-poller.ts. The receipt fetch outcome
is passed explicitly (`.error msg` = the RPC call threw with message
`msg`). `.ok none` applies no update (record stays pending), `.ok (some
u)` applies `u`, `.error` rethrows to the caller. -/
def pollTxStatus (outcome : Except String TxReceiptStatus) :
    Except String (Option PollUpdate) :=
  match outcome with
  | .error msg =>
    if containsSubstr msg "not found" || containsSubstr msg "pending" then .ok none
    else .error msg
  | .ok receipt =>
    if receipt.execution_status = some "REVERTED" then
      .ok (some { status := .reverted
                  executionStatus := some "REVERTED"
                  revertReason :=
                    some (receipt.revert_reason.getD "Transaction reverted") })
    else if receipt.execution_status = some "FAILED" then
      .ok (some { status := .reverted, executionStatus := some "FAILED" })
    else if receipt.execution_status = some "SUCCEEDED" ||
        truthy receipt.finality_status then
      .ok (some { status := .succeeded
                  executionStatus :=
                    some (receipt.execution_status.getD "SUCCEEDED") })
    else .ok none

-- ═══════════════ Theorems: C8, C6, C7, C9 ═══════════════════════════

/-- C8 counterexample: at `spendingLimit = -1` and `validForSeconds = 60`
the produced credential stores the negative limit verbatim (nothing
enforces `limit ≥ 0`) and `validUntil = createdAt + 60` exactly, so
neither `spendingLimit ≥ 0` nor the strict `validUntil > createdAt + 60`
holds. -/
theorem create_local_session_key_counterexample :
    (createLocalSessionKey
        { tokenSymbol := "USDC", tokenAddress := "0xtoken", spendingLimit := -1
          validForSeconds := 60, allowedContracts := [] }
        1000 "0xpub").spendingLimit = -1 ∧
    ¬ (0 ≤ (createLocalSessionKey
        { tokenSymbol := "USDC", tokenAddress := "0xtoken", spendingLimit := -1
          validForSeconds := 60, allowedContracts := [] }
        1000 "0xpub").spendingLimit) ∧
    (createLocalSessionKey
        { tokenSymbol := "USDC", tokenAddress := "0xtoken", spendingLimit := -1
          validForSeconds := 60, allowedContracts := [] }
        1000 "0xpub").validUntil = 1060 ∧
    ¬ (1000 + 60 < (createLocalSessionKey
        { tokenSymbol := "USDC", tokenAddress := "0xtoken", spendingLimit := -1
          validForSeconds := 60, allowedContracts := [] }
        1000 "0xpub").validUntil) := by
  refine ⟨by decide, by decide, by decide, by decide⟩

/-- C8 (amended): every credential produced by `createLocalSessionKey`
satisfies `validAfter < validUntil`, `validUntil ≥ createdAt + 60`
(equality is reached when `validForSeconds ≤ 60`), and
`allowedContracts.length ≤ 4`; the spending limit is stored verbatim, so
it is non-negative exactly when the input is — negative inputs are not
rejected. -/
theorem create_local_session_key_invariants (params : CreateLocalParams)
    (createdAt : Int) (pub : String) :
    (createLocalSessionKey params createdAt pub).validAfter <
      (createLocalSessionKey params createdAt pub).validUntil ∧
    (createLocalSessionKey params createdAt pub).createdAt + 60 ≤
      (createLocalSessionKey params createdAt pub).validUntil ∧
    (createLocalSessionKey params createdAt pub).allowedContracts.length ≤ 4 ∧
    (createLocalSessionKey params createdAt pub).spendingLimit =
      params.spendingLimit ∧
    (0 ≤ params.spendingLimit →
      0 ≤ (createLocalSessionKey params createdAt pub).spendingLimit) := by
  have hmax : (60 : Int) ≤ max 60 params.validForSeconds := le_max_left _ _
  refine ⟨?_, ?_, ?_, rfl, fun h => h⟩
  · simp only [createLocalSessionKey]
    omega
  · simp only [createLocalSessionKey]
    omega
  · simp only [createLocalSessionKey]
    exact le_trans (List.length_take_le _ _) (by norm_num [MAX_ALLOWED_TARGETS])

/-- Witness for the amended C8 theorem at a concrete input. -/
theorem create_local_session_key_invariants_witness :
    0 ≤ (createLocalSessionKey
        { tokenSymbol := "USDC", tokenAddress := "0xtoken", spendingLimit := 5
          validForSeconds := 120, allowedContracts := ["0xa"] }
        1000 "0xpub").spendingLimit :=
  (create_local_session_key_invariants
    { tokenSymbol := "USDC", tokenAddress := "0xtoken", spendingLimit := 5
      validForSeconds := 120, allowedContracts := ["0xa"] }
    1000 "0xpub").2.2.2.2 (by decide)

/-- C6: whenever the credential's `allowedContracts` list is non-empty,
`registerSessionKeyOnchain` throws the contract-restrictions error
before performing any effect: no `add_or_update_session_key` call is
made and the stored session index is never rewritten. -/
theorem register_rejects_contract_restrictions (session : StoredSessionKey)
    (index : List StoredSessionKey) (txHash : String) (now : Int)
    (h : session.allowedContracts ≠ []) :
    (registerSessionKeyOnchain session index txHash now).2 =
      Except.error contractRestrictionsErrorMsg ∧
    (registerSessionKeyOnchain session index txHash now).1 = [] := by
  have hl : session.allowedContracts.length > 0 := List.length_pos.mpr h
  rw [registerSessionKeyOnchain, if_pos hl]
  exact ⟨rfl, rfl⟩

/-- Witness for the C6 theorem at a concrete input. -/
theorem register_rejects_contract_restrictions_witness :
    (registerSessionKeyOnchain
        { key := "0xkey", tokenSymbol := "USDC", tokenAddress := "0xt"
          spendingLimit := 0, validAfter := 0, validUntil := 100
          allowedContracts := ["0xc"], createdAt := 0 }
        [] "0xtx" 5).2 = Except.error contractRestrictionsErrorMsg ∧
    (registerSessionKeyOnchain
        { key := "0xkey", tokenSymbol := "USDC", tokenAddress := "0xt"
          spendingLimit := 0, validAfter := 0, validUntil := 100
          allowedContracts := ["0xc"], createdAt := 0 }
        [] "0xtx" 5).1 = [] :=
  register_rejects_contract_restrictions _ [] "0xtx" 5 (by decide)

/-- C7: `isSessionKeyValidOnchain` returns `true` exactly when the
`get_session_data` call succeeded and its parsed result satisfies
`validUntil > now ∧ callsUsed < maxCalls`; on any RPC failure it returns
`false` instead of throwing. -/
theorem session_valid_onchain_fail_closed :
    (∀ (rpcResult : Except String (List String)) (now : Nat),
      isSessionKeyValidOnchain rpcResult now = true ↔
      (∃ res validUntil maxCalls callsUsed,
        rpcResult = Except.ok res ∧
        jsBigIntNat (res.getD 0 "0x0") = some validUntil ∧
        jsBigIntNat (res.getD 1 "0x0") = some maxCalls ∧
        jsBigIntNat (res.getD 2 "0x0") = some callsUsed ∧
        validUntil > now ∧ callsUsed < maxCalls)) ∧
    (∀ (e : String) (now : Nat),
      isSessionKeyValidOnchain (Except.error e) now = false) := by
  constructor
  · intro rpcResult now
    cases rpcResult with
    | error e => simp [isSessionKeyValidOnchain]
    | ok res =>
      simp only [isSessionKeyValidOnchain]
      constructor
      · intro h
        split at h
        · exact absurd h (by simp)
        · rename_i vu h0
          split at h
          · exact absurd h (by simp)
          · rename_i mc h1
            split at h
            · exact absurd h (by simp)
            · rename_i cu h2
              simp only [Bool.and_eq_true, decide_eq_true_eq] at h
              exact ⟨res, vu, mc, cu, rfl, h0, h1, h2, h.1, h.2⟩
      · rintro ⟨res1, vu1, mc1, cu1, heq, e0, e1, e2, hvu, hcu⟩
        injection heq with hres
        subst hres
        rw [e0, e1, e2]
        simp [hvu, hcu]
  · intro e now
    rfl

/-- C9 counterexample: a receipt with `execution_status = "FAILED"` maps
to status `reverted` but carries no `revertReason`, contradicting the
claim that FAILED receipts carry one. -/
theorem poll_tx_status_counterexample :
    pollTxStatus (Except.ok
      { finality_status := some "ACCEPTED_ON_L2"
        execution_status := some "FAILED" }) =
      Except.ok (some
        { status := ActivityStatus.reverted
          executionStatus := some "FAILED"
          revertReason := none }) ∧
    ∀ u, pollTxStatus (Except.ok
      { finality_status := some "ACCEPTED_ON_L2"
        execution_status := some "FAILED" }) = Except.ok (some u) →
      u.revertReason = none := by
  constructor
  · rfl
  · intro u h
    have h1 : pollTxStatus (Except.ok
        { finality_status := some "ACCEPTED_ON_L2"
          execution_status := some "FAILED" }) =
        Except.ok (some
          { status := ActivityStatus.reverted
            executionStatus := some "FAILED"
            revertReason := none }) := by rfl
    have h2 := Except.ok.inj (h1.symm.trans h)
    rw [← Option.some.inj h2]

/-- C9 (amended): receipt outcomes map as follows — `REVERTED` gives
status `reverted` carrying a `revertReason` (defaulting to "Transaction
reverted"); `FAILED` gives status `reverted` with no `revertReason`;
`SUCCEEDED`, or any truthy finality status with no failing execution
status, gives `succeeded`; a receipt that is neither, and a fetch error
for a not-found or still-pending transaction, applies no update, leaving
the record `pending`. -/
theorem poll_tx_status_mapping (receipt : TxReceiptStatus) (msg : String) :
    (receipt.execution_status = some "REVERTED" →
      pollTxStatus (Except.ok receipt) = Except.ok (some
        { status := ActivityStatus.reverted
          executionStatus := some "REVERTED"
          revertReason := some (receipt.revert_reason.getD "Transaction reverted") })) ∧
    (receipt.execution_status = some "FAILED" →
      pollTxStatus (Except.ok receipt) = Except.ok (some
        { status := ActivityStatus.reverted
          executionStatus := some "FAILED"
          revertReason := none })) ∧
    (receipt.execution_status ≠ some "REVERTED" →
      receipt.execution_status ≠ some "FAILED" →
      (receipt.execution_status = some "SUCCEEDED" ∨
        truthy receipt.finality_status = true) →
      pollTxStatus (Except.ok receipt) = Except.ok (some
        { status := ActivityStatus.succeeded
          executionStatus := some (receipt.execution_status.getD "SUCCEEDED")
          revertReason := none })) ∧
    (receipt.execution_status ≠ some "REVERTED" →
      receipt.execution_status ≠ some "FAILED" →
      receipt.execution_status ≠ some "SUCCEEDED" →
      truthy receipt.finality_status = false →
      pollTxStatus (Except.ok receipt) = Except.ok none) ∧
    ((containsSubstr msg "not found" || containsSubstr msg "pending") = true →
      pollTxStatus (Except.error msg) = Except.ok none) := by
  refine ⟨fun h1 => ?_, fun h1 => ?_, fun h1 h2 h3 => ?_, fun h1 h2 h3 h4 => ?_,
    fun h1 => ?_⟩
  · simp [pollTxStatus, h1]
  · simp [pollTxStatus, h1]
  · rcases h3 with h3 | h3 <;> simp [pollTxStatus, h1, h2, h3]
  · simp [pollTxStatus, h1, h2, h3, h4]
  · simp [pollTxStatus, h1]

/-- Witness for the amended C9 theorem at a concrete input. -/
theorem poll_tx_status_mapping_witness :
    pollTxStatus (Except.ok
      { finality_status := some "ACCEPTED_ON_L2"
        execution_status := some "REVERTED"
        revert_reason := some "oops" }) =
      Except.ok (some
        { status := ActivityStatus.reverted
          executionStatus := some "REVERTED"
          revertReason := some "oops" }) := by
  have h := (poll_tx_status_mapping
    { finality_status := some "ACCEPTED_ON_L2"
      execution_status := some "REVERTED"
      revert_reason := some "oops" }
    "x").1 rfl
  exact h.trans (by rfl)

-- ═══════ KeyringProxySigner (signer/keyring-proxy-signer.ts) ════════

/-- `KeyringProxySignerConfig` of keyring-proxy-signer.ts. -/
structure KeyringProxySignerConfig where
  proxyUrl : String
  accountAddress : String
  clientId : String
  hmacSecret : String
  requestTimeoutMs : Nat
  validUntil : Nat
  keyId : Option String := none
  requester : String
  tool : String
  mobileActionId : String
  reason : Option String := none
  deriving Repr

/-- The parsed JSON of a keyring signing response, restricted to the
fields the validation logic inspects. The `unknown[]` signature entries
are modelled as strings: a non-string entry behaves exactly like a
string failing `isHexFelt`, which is how `signature.every(isHexFelt)`
treats it. -/
structure KeyringSignResponse where
  signature : List String
  sessionPublicKey : Option String := none
  deriving DecidableEq, Repr

/-- `endpointPath` of `KeyringProxySigner`; also the value of
`url.pathname + url.search` for `new URL(endpointPath, proxyUrl)` with
any base URL carrying no query or fragment. -/
def keyringEndpointPath : String := "/v1/sign/session-transaction"

/-- `String.prototype.padStart(2, "0")`. -/
def padStart2 (s : String) : String :=
  if s.length < 2 then ⟨List.replicate (2 - s.length) '0' ++ s.data⟩ else s

/-- One byte rendered as in `randomNonceHex`:
`b.toString(16).padStart(2, "0")`. -/
def byteToHex (b : Nat) : String := padStart2 ⟨natToHexDigits b⟩

/-- `join("")` of the rendered bytes. -/
def bytesToHexStr : List Nat → String
  | [] => ""
  | b :: rest => byteToHex b ++ bytesToHexStr rest

/-- `randomNonceHex` of keyring-proxy-signer.ts, with the random bytes
passed explicitly. -/
def randomNonceHex (bytes : List Nat) : String := bytesToHexStr bytes

/-- JavaScript `String.prototype.toUpperCase` on ASCII strings. -/
def strToUpper (s : String) : String := ⟨s.data.map Char.toUpper⟩

/-- `buildHmacPayload` of keyring-proxy-signer.ts:
`timestamp.nonce.METHOD.path.sha256Hex(rawBody)`. The SHA-256 digest is
external library code (`@noble/hashes`), passed as a parameter. -/
def buildHmacPayload (sha256Hex : String → String)
    (timestamp nonce method path rawBody : String) : String :=
  timestamp ++ "." ++ nonce ++ "." ++ strToUpper method ++ "." ++ path ++ "." ++
    sha256Hex rawBody

/-- The headers of the `fetch` request issued by
`KeyringProxySigner.signTransaction`. The per-request effectful inputs
(the `Date.now().toString()` timestamp and the 16 fresh random nonce
bytes) and the serialized request body are passed explicitly; SHA-256
and HMAC-SHA256 are external library primitives, passed as parameters. -/
def keyringRequestHeaders (cfg : KeyringProxySignerConfig)
    (sha256Hex : String → String) (hmacHex : String → String → String)
    (timestamp : String) (nonceBytes : List Nat) (rawBody : String) :
    List (String × String) :=
  let nonce := randomNonceHex nonceBytes
  let payload := buildHmacPayload sha256Hex timestamp nonce "POST"
    keyringEndpointPath rawBody
  let signature := hmacHex cfg.hmacSecret payload
  [("content-type", "application/json"),
   ("x-keyring-client-id", cfg.clientId),
   ("x-keyring-timestamp", timestamp),
   ("x-keyring-nonce", nonce),
   ("x-keyring-signature", signature)]

/-- The malformed-shape error message of the response validation. -/
def keyringErrSignatureShape : String :=
  "Invalid keyring signature response: expected [pubkey, r, s, valid_until]"

/-- The non-hex-felt error message of the response validation. -/
def keyringErrSignatureHex : String :=
  "Invalid keyring signature response: all signature felts must be hex"

/-- The sessionPublicKey-mismatch error message. -/
def keyringErrPubkeyMismatch : String :=
  "Invalid keyring signature response: sessionPublicKey does not match signature pubkey"

/-- The valid_until-mismatch error message. -/
def keyringErrValidUntilMismatch : String :=
  "Invalid keyring signature response: signature valid_until does not match requested window"

/-- The cached-key-rotation error message. -/
def keyringErrPubkeyChanged : String :=
  "Invalid keyring signature response: session public key changed unexpectedly"

/-- The `responseSessionPublicKey` computation of the validation phase:
`parsed.sessionPublicKey ? num.toHex(BigInt(parsed.sessionPublicKey)) :
signaturePubKey`, with the JavaScript truthiness test split into the
absent and empty-string cases and the `BigInt` exception made explicit. -/
def keyringResponseKey (spk : Option String) (signaturePubKey : String) :
    Except String String :=
  match spk with
  | some s =>
    if s = "" then .ok signaturePubKey
    else
      match jsBigIntNat s with
      | some n => .ok (natToHex n)
      | none => .error ("Cannot convert " ++ s ++ " to a BigInt")
  | none => .ok signaturePubKey

/-- The response-validation phase of `KeyringProxySigner.signTransaction`
(source lines following the `response.json()` parse), as a function of
the configured `validUntil`, the signer's `cachedSessionPublicKey` state
and the parsed response. Returns the normalized signature together with
the new cached session public key, or the thrown error. The
`BigInt(parsed.sessionPublicKey)` conversion sits before the mismatch
check and throws on an unparsable value, as in the source. -/
def validateKeyringResponse (validUntil : Nat) (cached : Option String)
    (resp : KeyringSignResponse) : Except String (List String × String) :=
  if resp.signature.length ≠ 4 then .error keyringErrSignatureShape
  else if ! resp.signature.all isHexFelt then .error keyringErrSignatureHex
  else
    let normalized := resp.signature.map (fun f => natToHex ((jsBigIntNat f).getD 0))
    let signaturePubKey := normalized.getD 0 ""
    let signatureValidUntil := normalized.getD 3 ""
    let expectedValidUntil := natToHex validUntil
    match keyringResponseKey resp.sessionPublicKey signaturePubKey with
    | .error e => .error e
    | .ok responseSessionPublicKey =>
      if truthy resp.sessionPublicKey &&
          ! feltEqualsHex (resp.sessionPublicKey.getD "") signaturePubKey then
        .error keyringErrPubkeyMismatch
      else if ! feltEqualsHex signatureValidUntil expectedValidUntil then
        .error keyringErrValidUntilMismatch
      else if truthy cached &&
          ! feltEqualsHex (cached.getD "") responseSessionPublicKey then
        .error keyringErrPubkeyChanged
      else .ok (normalized, responseSessionPublicKey)

/-- The session public key a response carries: the truthy
`sessionPublicKey` field when present, the signature's first felt
otherwise. -/
def carriedSessionKey (resp : KeyringSignResponse) : String :=
  if truthy resp.sessionPublicKey then resp.sessionPublicKey.getD ""
  else resp.signature.getD 0 ""

-- ── Facts about the response validation ─────────────────────────────

theorem natToHex_ne_empty (n : Nat) : natToHex n ≠ "" := by
  intro h
  have h2 := congrArg String.data h
  simp [natToHex, String.data_append] at h2

theorem feltEqualsHex_natToHex (a b : Nat) :
    feltEqualsHex (natToHex a) (natToHex b) = (a == b) := by
  simp [feltEqualsHex, jsBigIntNat_natToHex]

theorem feltEqualsHex_eq_true_iff (a b : String) :
    feltEqualsHex a b = true ↔
      ∃ x, jsBigIntNat a = some x ∧ jsBigIntNat b = some x := by
  unfold feltEqualsHex
  cases ha : jsBigIntNat a with
  | none => simp
  | some x =>
    cases hb : jsBigIntNat b with
    | none => simp
    | some y =>
      simp only [beq_iff_eq, Option.some.injEq]
      constructor
      · intro h; exact ⟨x, rfl, h.symm⟩
      · rintro ⟨z, hz1, hz2⟩; exact hz1.trans hz2.symm

/-- Comparing against the `num.toHex` normalization of a parsable felt is
the same as comparing against the felt itself. -/
theorem feltEqualsHex_norm (s t : String) (v : Nat)
    (ht : jsBigIntNat t = some v) :
    feltEqualsHex s (natToHex v) = feltEqualsHex s t := by
  unfold feltEqualsHex
  rw [jsBigIntNat_natToHex, ht]

theorem getD_map_hex (l : List String) (n : Nat) (h : n < l.length) :
    (l.map (fun f => natToHex ((jsBigIntNat f).getD 0))).getD n "" =
      natToHex ((jsBigIntNat (l.getD n "")).getD 0) := by
  rw [List.getD_eq_getElem _ _ (by simpa using h), List.getD_eq_getElem _ _ h]
  exact List.getElem_map _

theorem isHexFelt_getD {l : List String} (hall : l.all isHexFelt = true)
    {n : Nat} (h : n < l.length) : isHexFelt (l.getD n "") = true := by
  have hm : l.getD n "" ∈ l := by
    rw [List.getD_eq_getElem _ _ h]
    exact List.getElem_mem h
  exact List.all_eq_true.mp hall _ hm

/-- A successful `keyringResponseKey` computation either passes the
signature pubkey through (field absent or empty, i.e. falsy) or
normalizes a parsable truthy field. -/
theorem keyringResponseKey_ok_cases (spk : Option String) (p k : String)
    (h : keyringResponseKey spk p = .ok k) :
    (truthy spk = false ∧ k = p) ∨
    (∃ s n, spk = some s ∧ s ≠ "" ∧ jsBigIntNat s = some n ∧ k = natToHex n) := by
  cases spk with
  | none => exact Or.inl ⟨rfl, (Except.ok.inj h).symm⟩
  | some s =>
    rw [keyringResponseKey] at h
    by_cases hs : s = ""
    · subst hs
      rw [if_pos rfl] at h
      exact Or.inl ⟨by simp [truthy], (Except.ok.inj h).symm⟩
    · rw [if_neg hs] at h
      cases hn : jsBigIntNat s with
      | none =>
        rw [hn] at h
        exact absurd h (by simp)
      | some n =>
        rw [hn] at h
        exact Or.inr ⟨s, n, rfl, hs, hn, (Except.ok.inj h).symm⟩

theorem bool_of_not_not {b : Bool} (h : ¬ ((!b) = true)) : b = true := by
  cases b
  · simp at h
  · rfl

theorem bool_of_not_and_not {a b : Bool} (ha : a = true)
    (h : ¬ ((a && !b) = true)) : b = true := by
  subst ha
  cases b
  · simp at h
  · rfl

/-- Soundness of the response validation: a success implies every
mandatory condition — exactly 4 hex felts, the 4th felt numerically equal
to the configured `validUntil`, a truthy `sessionPublicKey` numerically
equal to the signature's first felt, agreement with a truthy cached key —
and the returned key is the `num.toHex` normal form of the carried
session key. -/
theorem validateKeyringResponse_ok (validUntil : Nat) (cached : Option String)
    (resp : KeyringSignResponse) (sig : List String) (key : String)
    (h : validateKeyringResponse validUntil cached resp = .ok (sig, key)) :
    resp.signature.length = 4 ∧
    resp.signature.all isHexFelt = true ∧
    jsBigIntNat (resp.signature.getD 3 "") = some validUntil ∧
    (∀ s, resp.sessionPublicKey = some s → s ≠ "" →
      feltEqualsHex s (resp.signature.getD 0 "") = true) ∧
    (∃ kr, jsBigIntNat (carriedSessionKey resp) = some kr ∧ key = natToHex kr) ∧
    (∀ c, cached = some c → c ≠ "" → feltEqualsHex c key = true) := by
  simp only [validateKeyringResponse] at h
  split at h
  · exact absurd h (by simp)
  rename_i hlen2
  split at h
  · exact absurd h (by simp)
  rename_i hhex2
  split at h
  · exact absurd h (by simp)
  rename_i k heq
  split at h
  · exact absurd h (by simp)
  rename_i hmis2
  split at h
  · exact absurd h (by simp)
  rename_i hvu2
  split at h
  · exact absurd h (by simp)
  rename_i hcached2
  have hpair := Except.ok.inj h
  injection hpair with hsig hkey
  have hlen : resp.signature.length = 4 := by omega
  have hhex : resp.signature.all isHexFelt = true := by
    revert hhex2
    cases resp.signature.all isHexFelt <;> simp
  have h3lt : 3 < resp.signature.length := by omega
  have h0lt : 0 < resp.signature.length := by omega
  obtain ⟨m3, hm3⟩ := jsBigIntNat_isSome_of_isHexFelt (isHexFelt_getD hhex h3lt)
  obtain ⟨m0, hm0⟩ := jsBigIntNat_isSome_of_isHexFelt (isHexFelt_getD hhex h0lt)
  have hvu3 := bool_of_not_not hvu2
  rw [getD_map_hex _ _ h3lt, hm3] at hvu3
  simp only [Option.getD_some, feltEqualsHex_natToHex, beq_iff_eq] at hvu3
  refine ⟨hlen, hhex, by rw [hm3, hvu3], ?_, ?_, ?_⟩
  · intro t ht htne
    have htr : truthy resp.sessionPublicKey = true := by
      rw [ht]
      simp [truthy, htne]
    have hb := bool_of_not_and_not htr hmis2
    rw [ht] at hb
    simp only [Option.getD_some] at hb
    rw [getD_map_hex _ _ h0lt, hm0] at hb
    simp only [Option.getD_some] at hb
    rw [feltEqualsHex_norm t _ m0 hm0] at hb
    exact hb
  · rcases keyringResponseKey_ok_cases _ _ _ heq with ⟨htr, hkp⟩ |
      ⟨s, n, hs, hsne, hn, hkn⟩
    · refine ⟨m0, ?_, ?_⟩
      · rw [carriedSessionKey, htr]
        exact hm0
      · rw [← hkey, hkp, getD_map_hex _ _ h0lt, hm0]
        rfl
    · refine ⟨n, ?_, ?_⟩
      · rw [carriedSessionKey, hs]
        simp [truthy, hsne, hn]
      · rw [← hkey, hkn]
  · intro c hc hcne
    have htr : truthy cached = true := by
      rw [hc]
      simp [truthy, hcne]
    have hb := bool_of_not_and_not htr hcached2
    rw [hc] at hb
    simp only [Option.getD_some] at hb
    rw [← hkey]
    exact hb

/-- Completeness of the response validation: when the signature is 4 hex
felts whose 4th felt equals the configured `validUntil`, and any truthy
`sessionPublicKey` matches the signature's first felt, validation reduces
to the cached-key check alone. -/
theorem validateKeyringResponse_reduces (validUntil : Nat)
    (cached : Option String) (resp : KeyringSignResponse) (kr : Nat)
    (hlen : resp.signature.length = 4)
    (hhex : resp.signature.all isHexFelt = true)
    (hvu : jsBigIntNat (resp.signature.getD 3 "") = some validUntil)
    (hspk : ∀ s, resp.sessionPublicKey = some s → s ≠ "" →
      feltEqualsHex s (resp.signature.getD 0 "") = true)
    (hk : jsBigIntNat (carriedSessionKey resp) = some kr) :
    validateKeyringResponse validUntil cached resp =
      if truthy cached &&
          ! feltEqualsHex (cached.getD "") (natToHex kr) then
        .error keyringErrPubkeyChanged
      else .ok (resp.signature.map (fun f => natToHex ((jsBigIntNat f).getD 0)),
        natToHex kr) := by
  have h3lt : 3 < resp.signature.length := by omega
  have h0lt : 0 < resp.signature.length := by omega
  obtain ⟨m0, hm0⟩ := jsBigIntNat_isSome_of_isHexFelt (isHexFelt_getD hhex h0lt)
  have hkeyev : keyringResponseKey resp.sessionPublicKey
      ((resp.signature.map (fun f => natToHex ((jsBigIntNat f).getD 0))).getD 0 "") =
      .ok (natToHex kr) := by
    cases hsp : resp.sessionPublicKey with
    | none =>
      rw [carriedSessionKey, hsp] at hk
      rw [show truthy none = false from rfl] at hk
      rw [if_neg (by simp)] at hk
      have hkr : kr = m0 := Option.some.inj (hk.symm.trans hm0)
      rw [keyringResponseKey, getD_map_hex _ _ h0lt, hm0, hkr]
      rfl
    | some s =>
      by_cases hs : s = ""
      · subst hs
        rw [carriedSessionKey, hsp] at hk
        rw [show truthy (some "") = false from by simp [truthy]] at hk
        rw [if_neg (by simp)] at hk
        have hkr : kr = m0 := Option.some.inj (hk.symm.trans hm0)
        rw [keyringResponseKey, if_pos rfl, getD_map_hex _ _ h0lt, hm0, hkr]
        rfl
      · rw [carriedSessionKey, hsp] at hk
        rw [show truthy (some s) = true from by simp [truthy, hs]] at hk
        rw [if_pos rfl] at hk
        simp only [Option.getD_some] at hk
        rw [keyringResponseKey, if_neg hs, hk]
  simp only [validateKeyringResponse]
  rw [if_neg (by omega)]
  rw [if_neg (by rw [hhex]; simp)]
  split
  · rename_i e heq
    rw [hkeyev] at heq
    exact absurd heq (by simp)
  · rename_i k heq
    rw [hkeyev] at heq
    have hkk : k = natToHex kr := (Except.ok.inj heq).symm
    have hmisfalse : (truthy resp.sessionPublicKey &&
        ! feltEqualsHex (resp.sessionPublicKey.getD "")
          ((resp.signature.map (fun f => natToHex ((jsBigIntNat f).getD 0))).getD 0 "")) =
        false := by
      cases hsp : resp.sessionPublicKey with
      | none => rfl
      | some s =>
        by_cases hs : s = ""
        · subst hs
          simp [truthy]
        · have hfe := hspk s hsp hs
          rw [show truthy (some s) = true from by simp [truthy, hs]]
          simp only [Option.getD_some]
          rw [getD_map_hex _ _ h0lt, hm0]
          simp only [Option.getD_some]
          rw [feltEqualsHex_norm s _ m0 hm0, hfe]
          rfl
    rw [hmisfalse]
    rw [if_neg (by simp)]
    have hvufe : feltEqualsHex
        ((resp.signature.map (fun f => natToHex ((jsBigIntNat f).getD 0))).getD 3 "")
        (natToHex validUntil) = true := by
      rw [getD_map_hex _ _ h3lt, hvu]
      simp only [Option.getD_some, feltEqualsHex_natToHex, beq_self_eq_true]
    rw [hvufe]
    rw [if_neg (by simp)]
    rw [hkk]

-- ═══════════════ Theorems: C3, C4, C5 ═══════════════════════════════

/-- C3 counterexample: a response whose `sessionPublicKey` field is
present but is the empty string — numerically 0 under the code's own
`BigInt` semantics, hence not numerically equal to the signature's first
felt `0x1` — passes validation, because the JavaScript truthiness test
`parsed.sessionPublicKey &&` skips the mismatch check for `""`. The
claim requires the signer to fail here. -/
theorem keyring_response_validation_counterexample :
    validateKeyringResponse 100 none
        { signature := ["0x1", "0x2", "0x3", "0x64"]
          sessionPublicKey := some "" } =
      Except.ok (["0x1", "0x2", "0x3", "0x64"], "0x1") ∧
    jsBigIntNat "" = some 0 ∧
    jsBigIntNat "0x1" = some 1 ∧
    (0 : Nat) ≠ 1 := by
  refine ⟨rfl, rfl, rfl, by decide⟩

/-- C3 (amended): `KeyringProxySigner.signTransaction` fails whenever the
response's `signature` is not an array of exactly 4 hex-felt strings,
whenever the signature's 4th felt is not numerically equal to the
request's `validUntil`, or whenever a present non-empty (truthy)
`sessionPublicKey` is not numerically equal to the signature's first
felt; a 3-element signature yields the malformed-response error, whose
message contains the phrase "pubkey, r, s, valid_until". (An
empty-string `sessionPublicKey` is treated as absent.) -/
theorem keyring_response_validation (validUntil : Nat)
    (cached : Option String) (resp : KeyringSignResponse) :
    (resp.signature.length ≠ 4 →
      ∃ e, validateKeyringResponse validUntil cached resp = .error e) ∧
    (resp.signature.all isHexFelt = false →
      ∃ e, validateKeyringResponse validUntil cached resp = .error e) ∧
    (∀ m, jsBigIntNat (resp.signature.getD 3 "") = some m → m ≠ validUntil →
      ∃ e, validateKeyringResponse validUntil cached resp = .error e) ∧
    (∀ s, resp.sessionPublicKey = some s → s ≠ "" →
      feltEqualsHex s (resp.signature.getD 0 "") = false →
      ∃ e, validateKeyringResponse validUntil cached resp = .error e) ∧
    (resp.signature.length = 3 →
      validateKeyringResponse validUntil cached resp =
        .error keyringErrSignatureShape) ∧
    containsSubstr keyringErrSignatureShape "pubkey, r, s, valid_until" = true := by
  refine ⟨?_, ?_, ?_, ?_, ?_, by rfl⟩
  · intro hcond
    cases hres : validateKeyringResponse validUntil cached resp with
    | error e => exact ⟨e, rfl⟩
    | ok out =>
      obtain ⟨hlen, -, -, -, -, -⟩ :=
        validateKeyringResponse_ok validUntil cached resp out.1 out.2
          (by rw [hres])
      exact absurd hlen hcond
  · intro hcond
    cases hres : validateKeyringResponse validUntil cached resp with
    | error e => exact ⟨e, rfl⟩
    | ok out =>
      obtain ⟨-, hhex, -, -, -, -⟩ :=
        validateKeyringResponse_ok validUntil cached resp out.1 out.2
          (by rw [hres])
      rw [hcond] at hhex
      exact absurd hhex (by simp)
  · intro m hm hne
    cases hres : validateKeyringResponse validUntil cached resp with
    | error e => exact ⟨e, rfl⟩
    | ok out =>
      obtain ⟨-, -, hvu, -, -, -⟩ :=
        validateKeyringResponse_ok validUntil cached resp out.1 out.2
          (by rw [hres])
      exact absurd (Option.some.inj (hm.symm.trans hvu)) hne
  · intro s hs hsne hfe
    cases hres : validateKeyringResponse validUntil cached resp with
    | error e => exact ⟨e, rfl⟩
    | ok out =>
      obtain ⟨-, -, -, hspk, -, -⟩ :=
        validateKeyringResponse_ok validUntil cached resp out.1 out.2
          (by rw [hres])
      rw [hspk s hs hsne] at hfe
      exact absurd hfe (by simp)
  · intro hcond
    rw [validateKeyringResponse, if_pos (by omega)]

/-- Witness for the amended C3 theorem: the concrete 3-element response
of scenario S4. -/
theorem keyring_response_validation_witness :
    validateKeyringResponse 100 none
        { signature := ["0x11", "0x22", "0x33"], sessionPublicKey := none } =
      Except.error keyringErrSignatureShape :=
  (keyring_response_validation 100 none
    { signature := ["0x11", "0x22", "0x33"], sessionPublicKey := none
      }).2.2.2.2.1 (by decide)

/-- C4: once a first successful response has established the cached
session public key, a later response that is otherwise valid succeeds
exactly when the session public key it carries is numerically equal to
the cached one — any hex spelling of the same value is accepted, and a
numerically different key fails with the pubkey-changed error. -/
theorem keyring_no_silent_pubkey_rotation (validUntil : Nat)
    (r1 r2 : KeyringSignResponse) (sig1 : List String) (k1 : String) (kr : Nat)
    (h1 : validateKeyringResponse validUntil none r1 = .ok (sig1, k1))
    (hlen : r2.signature.length = 4)
    (hhex : r2.signature.all isHexFelt = true)
    (hvu : jsBigIntNat (r2.signature.getD 3 "") = some validUntil)
    (hspk : ∀ s, r2.sessionPublicKey = some s → s ≠ "" →
      feltEqualsHex s (r2.signature.getD 0 "") = true)
    (hk : jsBigIntNat (carriedSessionKey r2) = some kr) :
    ((∃ out, validateKeyringResponse validUntil (some k1) r2 = .ok out) ↔
      jsBigIntNat k1 = some kr) ∧
    (jsBigIntNat k1 ≠ some kr →
      validateKeyringResponse validUntil (some k1) r2 =
        .error keyringErrPubkeyChanged) := by
  obtain ⟨-, -, -, -, ⟨n1, hn1, hk1⟩, -⟩ :=
    validateKeyringResponse_ok validUntil none r1 sig1 k1 h1
  have hred := validateKeyringResponse_reduces validUntil (some k1) r2 kr
    hlen hhex hvu hspk hk
  have htr : truthy (some k1) = true := by
    subst hk1
    simp [truthy, natToHex_ne_empty]
  have hfe : feltEqualsHex ((some k1).getD "") (natToHex kr) = (n1 == kr) := by
    subst hk1
    simp only [Option.getD_some]
    exact feltEqualsHex_natToHex n1 kr
  rw [htr, hfe] at hred
  have hjk : jsBigIntNat k1 = some n1 := by
    subst hk1
    exact jsBigIntNat_natToHex n1
  by_cases heqn : n1 = kr
  · subst heqn
    simp only [beq_self_eq_true, Bool.not_true, Bool.and_false,
      Bool.false_eq_true, if_false] at hred
    refine ⟨⟨fun _ => by rw [hjk], fun _ => ⟨_, hred⟩⟩, fun hcon => ?_⟩
    exact absurd hjk hcon
  · have hb : (n1 == kr) = false := by
      simp [heqn]
    simp only [hb, Bool.not_false, Bool.and_true, if_pos] at hred
    constructor
    · constructor
      · rintro ⟨out, hout⟩
        rw [hred] at hout
        exact absurd hout (by simp)
      · intro hcon
        rw [hjk] at hcon
        exact absurd (Option.some.inj hcon) heqn
    · intro _
      exact hred

/-- Witness for the C4 theorem: the cached key `0xaaa` established by a
first response accepts a second response spelling the same key
`0x0AAA`. -/
theorem keyring_no_silent_pubkey_rotation_witness :
    ∃ out, validateKeyringResponse 100 (some "0xaaa")
        { signature := ["0x0AAA", "0x3", "0x4", "0x64"]
          sessionPublicKey := none } = Except.ok out := by
  have h := keyring_no_silent_pubkey_rotation 100
    { signature := ["0xaaa", "0x1", "0x2", "0x64"], sessionPublicKey := none }
    { signature := ["0x0AAA", "0x3", "0x4", "0x64"], sessionPublicKey := none }
    ["0xaaa", "0x1", "0x2", "0x64"] "0xaaa" 2730
    rfl rfl rfl rfl
    (fun s hs _ => by exact absurd hs (by simp)) rfl
  exact h.1.mpr rfl

-- ── Nonce length facts ──────────────────────────────────────────────

theorem byteToHex_length : ∀ b, b < 256 → (byteToHex b).length = 2 := by
  decide

theorem bytesToHexStr_length (bytes : List Nat)
    (hb : ∀ b ∈ bytes, b < 256) :
    (bytesToHexStr bytes).length = 2 * bytes.length := by
  induction bytes with
  | nil => rfl
  | cons b rest ih =>
    rw [show bytesToHexStr (b :: rest) = byteToHex b ++ bytesToHexStr rest
      from rfl]
    rw [String.length_append, byteToHex_length b (hb b (by simp)),
      ih (fun x hx => hb x (by simp [hx])), List.length_cons]
    ring

/-- C5: every request issued by `KeyringProxySigner.signTransaction`
carries the headers `x-keyring-client-id`, `x-keyring-timestamp`,
`x-keyring-nonce` and `x-keyring-signature`, where the signature is
HMAC-SHA256 of
`timestamp . nonce . POST . path . sha256Hex(rawBody)` under the
configured secret, and the nonce is the fresh 16 random bytes of this
request hex-encoded (32 hex characters). -/
theorem keyring_hmac_request_headers (cfg : KeyringProxySignerConfig)
    (sha256Hex : String → String) (hmacHex : String → String → String)
    (timestamp : String) (nonceBytes : List Nat) (rawBody : String)
    (h16 : nonceBytes.length = 16) (hb : ∀ b ∈ nonceBytes, b < 256) :
    keyringRequestHeaders cfg sha256Hex hmacHex timestamp nonceBytes rawBody =
      [("content-type", "application/json"),
       ("x-keyring-client-id", cfg.clientId),
       ("x-keyring-timestamp", timestamp),
       ("x-keyring-nonce", randomNonceHex nonceBytes),
       ("x-keyring-signature", hmacHex cfg.hmacSecret
         (timestamp ++ "." ++ randomNonceHex nonceBytes ++ "." ++ "POST" ++
          "." ++ keyringEndpointPath ++ "." ++ sha256Hex rawBody))] ∧
    (randomNonceHex nonceBytes).length = 32 := by
  constructor
  · rfl
  · rw [show randomNonceHex nonceBytes = bytesToHexStr nonceBytes from rfl,
      bytesToHexStr_length nonceBytes hb, h16]

/-- Witness for the C5 theorem at a concrete request. -/
theorem keyring_hmac_request_headers_witness :
    (randomNonceHex (List.replicate 16 0)).length = 32 :=
  (keyring_hmac_request_headers
    { proxyUrl := "https://proxy.example/", accountAddress := "0x1"
      clientId := "cid", hmacSecret := "secret", requestTimeoutMs := 5000
      validUntil := 100, requester := "starkclaw-mobile"
      tool := "execute_transfer", mobileActionId := "m1" }
    (fun s => s) (fun a b => a ++ "|" ++ b) "1700000000000"
    (List.replicate 16 0) "body" (by decide) (by decide)).2

end Starkclaw
